import Mathlib

/-!
# chat-app: channel membership and moderation (`src/server.js`)

A shallow embedding of the channel part of `server.js`: the `manage-channel`
HTTP endpoint and the socket handlers `join-public`, `public-message`,
`create-channel`, `join-channel` and `channel-message`, over the two NeDB
collections `ChannelDB` and `MessageDB`.

Modelling conventions.
* Request fields are taken at the types of the data model: usernames, channel
  ids, names, contents and the `action` are strings; a password is an optional
  string (`none` is an absent field), because the code tests its truthiness.
* A NeDB collection is the list of its documents in insertion order.  `_id` is
  a unique key: `insert` fails on a duplicate `_id`, `findOne`/`update`/`remove`
  by `_id` touch the first (hence only) matching document.  The random `_id`
  NeDB gives to a message is not modelled.  Store I/O failures (the `if (err)`
  branches after `findOne`, `update` and `remove`) are not modelled: the only
  store error in the model is the unique-key violation of `insert`.
* The clock (`Date.now()`, `new Date()`) is an input of the event: every
  reading is a natural number of milliseconds; `toLocaleString()` formatting
  is abstracted to the reading itself.
* A handler is a function from the store to the new store and the list of
  emissions it makes, in program order.  `step` and `run` handle one request
  after the other, each from its `findOne` to its last store operation.
* The server itself does not wait: every NeDB call is queued on its collection
  and its callback runs later.  `Server`, `tick` and `exec` model that: the two
  queues, and any order of arrivals and of queue steps.  `exec_alone` shows that
  a request handled with nothing else in flight does what `step` says.  The
  sections on requests in flight work in these models.
-/

namespace ChatApp

/-! ## Data model -/

/-- A document of `ChannelDB` (server.js 147-156). -/
structure Channel where
  _id : String
  name : String
  creator : String
  password : Option String
  members : List String
  mutedUsers : List String
  bannedUsers : List String
  createdAt : Nat
  deriving DecidableEq

/-- A document of `MessageDB` (server.js 141, 205). -/
structure Message where
  channelId : String
  username : String
  content : String
  timestamp : Nat
  deriving DecidableEq

/-- The `msgData` object sent to clients (server.js 139, 181-185, 199-203). -/
structure MsgData where
  username : String
  content : String
  timestamp : Nat
  deriving DecidableEq

/-- The two collections the channel handlers work on. -/
structure State where
  channels : List Channel
  messages : List Message
  deriving DecidableEq

/-- The body of a `manage-channel` request (server.js 89). -/
structure ManageReq where
  channelId : String
  creator : String
  action : String
  newName : String
  newPassword : Option String
  targetUser : String
  deriving DecidableEq

/-- What a handler sends with an emission. -/
inductive Payload where
  | text (s : String)
  | channel (c : Channel)
  | msgData (m : MsgData)
  | created (channelId : String) (msg : String)
  | joined (channel : Channel) (messages : List MsgData)
  deriving DecidableEq

/-- The emissions of a handler. -/
inductive Effect where
  /-- The HTTP response `res.status(status).json({ msg })`. -/
  | respond (status : Nat) (msg : String)
  /-- The call `io.emit(event, payload)`: to every connected socket. -/
  | ioEmit (event : String) (payload : Payload)
  /-- The call `socket.emit(event, payload)`: to the sender only. -/
  | socketEmit (event : String) (payload : Payload)
  /-- The call `io.to(room).emit(event, payload)`: to every socket of the room. -/
  | ioToEmit (room : String) (event : String) (payload : Payload)
  /-- The call `socket.to(room).emit(event, payload)`: to the room, sender excepted. -/
  | socketToEmit (room : String) (event : String) (payload : Payload)
  /-- The call `socket.join(room)`. -/
  | socketJoin (room : String)
  deriving DecidableEq

/-! ## The store -/

/-- The query `ChannelDB.findOne({ _id: channelId })`. -/
def findOne (channels : List Channel) (channelId : String) : Option Channel :=
  channels.find? (fun c => c._id == channelId)

/-- The call `ChannelDB.update({ _id: channelId }, doc)`: the first document with that
`_id` is replaced by `doc`; without a match nothing changes (no upsert). -/
def update : List Channel → String → Channel → List Channel
  | [], _, _ => []
  | c :: cs, channelId, doc =>
    if c._id == channelId then doc :: cs else c :: update cs channelId doc

/-- The call `ChannelDB.remove({ _id: channelId }, {})`: the first document with that
`_id` is removed (`multi` is off). -/
def removeOne : List Channel → String → List Channel
  | [], _ => []
  | c :: cs, channelId =>
    if c._id == channelId then cs else c :: removeOne cs channelId

/-- The call `ChannelDB.insert(channel)`: fails (`none`) when the `_id` is taken. -/
def insert (channels : List Channel) (channel : Channel) : Option (List Channel) :=
  if (findOne channels channel._id).isSome then none else some (channels ++ [channel])

/-- The call `MessageDB.remove({ channelId }, { multi: true })`. -/
def removeMessages (messages : List Message) (channelId : String) : List Message :=
  messages.filter (fun m => m.channelId != channelId)

/-- The query `MessageDB.find({ channelId }).sort({ timestamp: 1 })`.  Messages
with equal timestamps are returned here in insertion order; NeDB returns them
in the order of the random `_id`s it gave them, which the model does not have.
No statement below depends on the order of the history. -/
def findMessages (messages : List Message) (channelId : String) : List Message :=
  (messages.filter (fun m => m.channelId == channelId)).insertionSort
    (fun a b => a.timestamp ≤ b.timestamp)

/-- JavaScript truthiness of a password field: absent and `''` are falsy. -/
def truthy : Option String → Bool
  | none => false
  | some p => p != ""

/-! ## `POST /api/manage-channel` (server.js 88-124) -/

/-- How the `switch (action)` of `manage-channel` leaves. -/
inductive Outcome where
  /-- Leaving by `break`: the local `channel` goes on to `ChannelDB.update`; `clear` says
  that `MessageDB.remove` was issued on the way (`clearChat`) -/
  | update (channel : Channel) (clear : Bool)
  /-- The `dissolve` case. -/
  | dissolve
  /-- The `default` case. -/
  | invalid
  deriving DecidableEq

/-- The `switch (action)` on the local copy `channel` (server.js 96-116). -/
def switchAction (channel : Channel) (req : ManageReq) : Outcome :=
  if req.action = "rename" then
    .update { channel with name := req.newName } false
  else if req.action = "changePassword" then
    .update { channel with password := req.newPassword } false
  else if req.action = "mute" then
    .update (if channel.mutedUsers.contains req.targetUser then channel
      else { channel with mutedUsers := channel.mutedUsers ++ [req.targetUser] }) false
  else if req.action = "unmute" then
    .update { channel with
      mutedUsers := channel.mutedUsers.filter (fun u => u != req.targetUser) } false
  else if req.action = "ban" then
    .update { channel with
      bannedUsers := channel.bannedUsers ++ [req.targetUser]
      members := channel.members.filter (fun u => u != req.targetUser) } false
  else if req.action = "unban" then
    .update { channel with
      bannedUsers := channel.bannedUsers.filter (fun u => u != req.targetUser) } false
  else if req.action = "clearChat" then
    .update channel true
  else if req.action = "dissolve" then
    .dissolve
  else
    .invalid

/-- The callback of `findOne` in `manage-channel`, given what `findOne`
returned (server.js 92-122). -/
def manageCallback (s : State) (req : ManageReq) :
    Option Channel → State × List Effect
  | none => (s, [.respond 400 "频道不存在"])
  | some channel =>
    if channel.creator ≠ req.creator then (s, [.respond 403 "你不是频道创建者"])
    else
      match switchAction channel req with
      | .update channel' clear =>
        ({ channels := update s.channels req.channelId channel'
           messages := if clear then removeMessages s.messages req.channelId
                       else s.messages },
         [.ioEmit "channel-updated" (.channel channel'), .respond 200 "操作成功"])
      | .dissolve =>
        ({ channels := removeOne s.channels req.channelId
           messages := removeMessages s.messages req.channelId },
         [.ioEmit "channel-dissolved" (.text req.channelId), .respond 200 "频道已解散"])
      | .invalid => (s, [.respond 400 "无效操作"])

/-- The endpoint `POST /api/manage-channel`. -/
def manageChannel (s : State) (req : ManageReq) : State × List Effect :=
  manageCallback s req (findOne s.channels req.channelId)

/-! ## Socket handlers (server.js 127-207) -/

/-- The handler `socket.on('join-public')` (server.js 131-134). -/
def joinPublic (s : State) (_username : String) : State × List Effect :=
  (s, [.socketJoin "public-chat", .socketEmit "join-success" (.text "已加入公共聊天室")])

/-- The handler `socket.on('public-message')` (server.js 137-142); `tSend` and `tStore`
are the two clock readings. -/
def publicMessage (s : State) (username content : String) (tSend tStore : Nat) :
    State × List Effect :=
  ({ s with messages := s.messages ++ [⟨"public-chat", username, content, tStore⟩] },
   [.ioToEmit "public-chat" "new-public-message" (.msgData ⟨username, content, tSend⟩)])

/-- The handler `socket.on('create-channel')` (server.js 145-163); `tId` is the reading of
`Date.now()`, `tCreated` that of `new Date()`. -/
def createChannel (s : State) (name : String) (password : Option String)
    (creator : String) (tId tCreated : Nat) : State × List Effect :=
  let channel : Channel :=
    { _id := toString tId, name := name, creator := creator, password := password,
      members := [creator], mutedUsers := [], bannedUsers := [], createdAt := tCreated }
  match insert s.channels channel with
  | none => (s, [.socketEmit "create-fail" (.text "创建频道失败")])
  | some channels =>
    ({ s with channels := channels },
     [.ioEmit "channel-created" (.channel channel), .socketJoin channel._id,
      .socketEmit "create-success" (.created channel._id "频道创建成功")])

/-- The handler `socket.on('join-channel')` (server.js 166-190). -/
def joinChannel (s : State) (channelId username : String) (password : Option String) :
    State × List Effect :=
  match findOne s.channels channelId with
  | none => (s, [.socketEmit "join-fail" (.text "频道不存在")])
  | some channel =>
    if channel.bannedUsers.contains username then
      (s, [.socketEmit "join-fail" (.text "你已被封禁")])
    else if truthy channel.password && channel.password != password then
      (s, [.socketEmit "join-fail" (.text "密码错误")])
    else
      let joined : Channel × List Channel :=
        if channel.members.contains username then (channel, s.channels)
        else
          let channel' := { channel with members := channel.members ++ [username] }
          (channel', update s.channels channelId channel')
      let msgList := (findMessages s.messages channelId).map
        (fun msg => (⟨msg.username, msg.content, msg.timestamp⟩ : MsgData))
      ({ s with channels := joined.2 },
       [.socketJoin channelId, .socketEmit "join-success" (.joined joined.1 msgList),
        .socketToEmit channelId "member-joined" (.text username)])

/-- The handler `socket.on('channel-message')` (server.js 193-207); `tSend` and `tStore`
are the two clock readings. -/
def channelMessage (s : State) (channelId username content : String)
    (tSend tStore : Nat) : State × List Effect :=
  match findOne s.channels channelId with
  | none => (s, [])
  | some channel =>
    if channel.mutedUsers.contains username then
      (s, [.socketEmit "message-fail" (.text "你已被禁言")])
    else
      ({ s with messages := s.messages ++ [⟨channelId, username, content, tStore⟩] },
       [.ioToEmit channelId "new-channel-message" (.msgData ⟨username, content, tSend⟩)])

/-! ## Traces -/

/-- The requests and socket events the server handles. -/
inductive Event where
  | manageChannel (req : ManageReq)
  | joinPublic (username : String)
  | publicMessage (username content : String) (tSend tStore : Nat)
  | createChannel (name : String) (password : Option String) (creator : String)
      (tId tCreated : Nat)
  | joinChannel (channelId username : String) (password : Option String)
  | channelMessage (channelId username content : String) (tSend tStore : Nat)
  deriving DecidableEq

/-- One event, handled atomically. -/
def step (s : State) : Event → State × List Effect
  | .manageChannel req => manageChannel s req
  | .joinPublic username => joinPublic s username
  | .publicMessage username content tSend tStore =>
    publicMessage s username content tSend tStore
  | .createChannel name password creator tId tCreated =>
    createChannel s name password creator tId tCreated
  | .joinChannel channelId username password => joinChannel s channelId username password
  | .channelMessage channelId username content tSend tStore =>
    channelMessage s channelId username content tSend tStore

/-- The store after a sequence of events, each handled atomically. -/
def run (s : State) (events : List Event) : State :=
  events.foldl (fun st ev => (step st ev).1) s

/-- The empty store. -/
def init : State := { channels := [], messages := [] }

/-- The stores the server can be in. -/
def Reachable (s : State) : Prop := ∃ events, run init events = s

/-- The event is a `ban` whose target is the acting user: the one request with
which a creator removes themselves from `members`. -/
def selfBan : Event → Bool
  | .manageChannel req => req.action == "ban" && req.targetUser == req.creator
  | _ => false

/-- The event is a `create-channel` whose `Date.now()` reading gives `channelId`. -/
def createsId (channelId : String) : Event → Bool
  | .createChannel _ _ _ tId _ => toString tId == channelId
  | _ => false

/-! ## Two `manage-channel` requests in flight

`manage-channel` reads the channel with `findOne`, changes its local copy in
the callback and hands the copy to `ChannelDB.update`, which NeDB runs later:
between the two steps of one request the steps of another may run.  Nothing in
`server.js` locks a channel.  The model below follows two requests on the
channel store through any order of their steps. -/

/-- What a request has queued on `ChannelDB` when its `findOne` callback
returns. -/
inductive Queued where
  /-- The call `ChannelDB.update({ _id: channelId }, channel)` with the local copy. -/
  | update (doc : Channel)
  /-- The call `ChannelDB.remove({ _id: channelId }, {})` of `dissolve`. -/
  | remove
  deriving DecidableEq

/-- The `findOne` step of a request: the callback runs on what `findOne`
returns and queues a write, or answers at once and queues nothing
(server.js 91-116). -/
def readStep (channels : List Channel) (req : ManageReq) : Option Queued :=
  match findOne channels req.channelId with
  | none => none
  | some channel =>
    if channel.creator ≠ req.creator then none
    else
      match switchAction channel req with
      | .update channel' _ => some (.update channel')
      | .dissolve => some .remove
      | .invalid => none

/-- The write step of a request: the queued call runs on the store as it is
then (server.js 109, 118). -/
def writeStep (channels : List Channel) (req : ManageReq) : Option Queued → List Channel
  | none => channels
  | some (.update doc) => update channels req.channelId doc
  | some .remove => removeOne channels req.channelId

/-- The channel store and what each of the two requests has queued. -/
structure Race where
  channels : List Channel
  queued₁ : Option Queued
  queued₂ : Option Queued
  deriving DecidableEq

/-- The four steps of two requests. -/
inductive Turn where
  | read₁
  | write₁
  | read₂
  | write₂
  deriving DecidableEq

/-- One step of one of the two requests `req₁` and `req₂`. -/
def raceStep (req₁ req₂ : ManageReq) (r : Race) : Turn → Race
  | .read₁ => { r with queued₁ := readStep r.channels req₁ }
  | .write₁ => { r with channels := writeStep r.channels req₁ r.queued₁ }
  | .read₂ => { r with queued₂ := readStep r.channels req₂ }
  | .write₂ => { r with channels := writeStep r.channels req₂ r.queued₂ }

/-- The channel store after the steps of the two requests in the given order. -/
def raceRun (req₁ req₂ : ManageReq) (channels : List Channel) (turns : List Turn) :
    List Channel :=
  (turns.foldl (raceStep req₁ req₂)
    { channels := channels, queued₁ := none, queued₂ := none }).channels

/-- The two orders in which one request is done before the other starts. -/
def serialSchedules : List (List Turn) :=
  [[.read₁, .write₁, .read₂, .write₂], [.read₂, .write₂, .read₁, .write₁]]

/-- The six interleavings of the two requests: each step once, every read before
the write of its request. -/
def schedules : List (List Turn) :=
  serialSchedules ++
  [[.read₁, .read₂, .write₁, .write₂], [.read₁, .read₂, .write₂, .write₁],
   [.read₂, .read₁, .write₁, .write₂], [.read₂, .read₁, .write₂, .write₁]]

/-! ## The server with its queues

NeDB runs the operations on one collection one at a time, in the order of the
calls, and runs the callback of an operation when the operation is done
(`ChannelDB` and `MessageDB` each have their own queue).  A handler only queues
its first operation; what follows is queued by the callbacks. -/

/-- An operation queued on `ChannelDB`, with what its callback needs. -/
inductive ChannelOp where
  /-- The `findOne` of `manage-channel` (server.js 91). -/
  | findManage (req : ManageReq)
  /-- The `findOne` of `join-channel` (server.js 168). -/
  | findJoin (channelId username : String) (password : Option String)
  /-- The `findOne` of `channel-message` (server.js 195). -/
  | findMessage (channelId username content : String) (tSend tStore : Nat)
  /-- The `update` of `manage-channel` (server.js 118), whose callback answers
  (`reply`), or that of `join-channel` (server.js 176), whose callback is empty. -/
  | update (channelId : String) (doc : Channel) (reply : Bool)
  /-- The `remove` of `dissolve` (server.js 109). -/
  | remove (channelId : String)
  /-- The `insert` of `create-channel` (server.js 157). -/
  | insert (channel : Channel)
  deriving DecidableEq

/-- An operation queued on `MessageDB`, with what its callback needs. -/
inductive MessageOp where
  /-- The `insert` of a message (server.js 141, 205). -/
  | insert (msg : Message)
  /-- The `remove` of `clearChat` and `dissolve` (server.js 106, 108). -/
  | remove (channelId : String)
  /-- The `find` of `join-channel` (server.js 180), for the local `channel` and
  `username` of its callback. -/
  | find (channelId : String) (channel : Channel) (username : String)
  deriving DecidableEq

/-- The two collections and the operations queued on each, oldest first. -/
structure Server where
  channels : List Channel
  messages : List Message
  channelQueue : List ChannelOp
  messageQueue : List MessageOp
  deriving DecidableEq

/-- What can happen next: a request or socket event arrives, or NeDB runs the
oldest operation queued on one of the collections, with its callback. -/
inductive Tick where
  | arrive (ev : Event)
  | channelDB
  | messageDB
  deriving DecidableEq

/-- The synchronous part of a handler: it queues its first NeDB call
(server.js 89-91, 132-133, 138-141, 146-157, 167-168, 194-195). -/
def arrive (sv : Server) : Event → Server × List Effect
  | .manageChannel req =>
    ({ sv with channelQueue := sv.channelQueue ++ [.findManage req] }, [])
  | .joinPublic _ =>
    (sv, [.socketJoin "public-chat", .socketEmit "join-success" (.text "已加入公共聊天室")])
  | .publicMessage username content tSend tStore =>
    ({ sv with messageQueue :=
        sv.messageQueue ++ [.insert ⟨"public-chat", username, content, tStore⟩] },
     [.ioToEmit "public-chat" "new-public-message" (.msgData ⟨username, content, tSend⟩)])
  | .createChannel name password creator tId tCreated =>
    ({ sv with channelQueue := sv.channelQueue ++
        [.insert { _id := toString tId, name := name, creator := creator,
                   password := password, members := [creator], mutedUsers := [],
                   bannedUsers := [], createdAt := tCreated }] }, [])
  | .joinChannel channelId username password =>
    ({ sv with channelQueue := sv.channelQueue ++ [.findJoin channelId username password] },
     [])
  | .channelMessage channelId username content tSend tStore =>
    ({ sv with channelQueue :=
        sv.channelQueue ++ [.findMessage channelId username content tSend tStore] }, [])

/-- NeDB runs an operation on `ChannelDB` and then its callback, which may
queue further operations (server.js 92-122, 158-161, 169-180, 196-205). -/
def channelOp (sv : Server) : ChannelOp → Server × List Effect
  | .findManage req =>
    match findOne sv.channels req.channelId with
    | none => (sv, [.respond 400 "频道不存在"])
    | some channel =>
      if channel.creator ≠ req.creator then (sv, [.respond 403 "你不是频道创建者"])
      else
        match switchAction channel req with
        | .update channel' clear =>
          ({ sv with
              channelQueue := sv.channelQueue ++ [.update req.channelId channel' true]
              messageQueue := if clear then sv.messageQueue ++ [.remove req.channelId]
                              else sv.messageQueue }, [])
        | .dissolve =>
          ({ sv with
              channelQueue := sv.channelQueue ++ [.remove req.channelId]
              messageQueue := sv.messageQueue ++ [.remove req.channelId] }, [])
        | .invalid => (sv, [.respond 400 "无效操作"])
  | .findJoin channelId username password =>
    match findOne sv.channels channelId with
    | none => (sv, [.socketEmit "join-fail" (.text "频道不存在")])
    | some channel =>
      if channel.bannedUsers.contains username then
        (sv, [.socketEmit "join-fail" (.text "你已被封禁")])
      else if truthy channel.password && channel.password != password then
        (sv, [.socketEmit "join-fail" (.text "密码错误")])
      else if channel.members.contains username then
        ({ sv with messageQueue := sv.messageQueue ++ [.find channelId channel username] },
         [.socketJoin channelId])
      else
        let channel' := { channel with members := channel.members ++ [username] }
        ({ sv with
            channelQueue := sv.channelQueue ++ [.update channelId channel' false]
            messageQueue := sv.messageQueue ++ [.find channelId channel' username] },
         [.socketJoin channelId])
  | .findMessage channelId username content tSend tStore =>
    match findOne sv.channels channelId with
    | none => (sv, [])
    | some channel =>
      if channel.mutedUsers.contains username then
        (sv, [.socketEmit "message-fail" (.text "你已被禁言")])
      else
        ({ sv with messageQueue :=
            sv.messageQueue ++ [.insert ⟨channelId, username, content, tStore⟩] },
         [.ioToEmit channelId "new-channel-message" (.msgData ⟨username, content, tSend⟩)])
  | .update channelId doc reply =>
    ({ sv with channels := update sv.channels channelId doc },
     if reply then [.ioEmit "channel-updated" (.channel doc), .respond 200 "操作成功"]
     else [])
  | .remove channelId =>
    ({ sv with channels := removeOne sv.channels channelId },
     [.ioEmit "channel-dissolved" (.text channelId), .respond 200 "频道已解散"])
  | .insert channel =>
    match insert sv.channels channel with
    | none => (sv, [.socketEmit "create-fail" (.text "创建频道失败")])
    | some channels =>
      ({ sv with channels := channels },
       [.ioEmit "channel-created" (.channel channel), .socketJoin channel._id,
        .socketEmit "create-success" (.created channel._id "频道创建成功")])

/-- NeDB runs an operation on `MessageDB` and then its callback
(server.js 106, 108, 141, 180-188, 205). -/
def messageOp (sv : Server) : MessageOp → Server × List Effect
  | .insert msg => ({ sv with messages := sv.messages ++ [msg] }, [])
  | .remove channelId => ({ sv with messages := removeMessages sv.messages channelId }, [])
  | .find channelId channel username =>
    (sv, [.socketEmit "join-success" (.joined channel
            ((findMessages sv.messages channelId).map
              (fun msg => (⟨msg.username, msg.content, msg.timestamp⟩ : MsgData)))),
          .socketToEmit channelId "member-joined" (.text username)])

/-- One thing happens; a queue step on an empty queue is no step. -/
def tick (sv : Server) : Tick → Server × List Effect
  | .arrive ev => arrive sv ev
  | .channelDB =>
    match sv.channelQueue with
    | [] => (sv, [])
    | op :: rest => channelOp { sv with channelQueue := rest } op
  | .messageDB =>
    match sv.messageQueue with
    | [] => (sv, [])
    | op :: rest => messageOp { sv with messageQueue := rest } op

/-- The server after the given arrivals and queue steps, with all it emitted. -/
def exec (sv : Server) : List Tick → Server × List Effect
  | [] => (sv, [])
  | t :: ts => ((exec (tick sv t).1 ts).1, (tick sv t).2 ++ (exec (tick sv t).1 ts).2)

/-- The server with the given store and nothing queued. -/
def atRest (s : State) : Server :=
  { channels := s.channels, messages := s.messages, channelQueue := [], messageQueue := [] }

/-- The arrival and the queue steps of one request handled with nothing else
in flight: no handler queues more than two operations on a collection. -/
def alone (ev : Event) : List Tick :=
  [.arrive ev, .channelDB, .channelDB, .messageDB, .messageDB]

/-- The tick is the arrival of a `create-channel` whose `Date.now()` reading
gives `channelId`. -/
def ticksCreate (channelId : String) : Tick → Bool
  | .arrive ev => createsId channelId ev
  | _ => false

/-- The queued operation on `ChannelDB` would write a document with this `_id`. -/
def writesId (channelId : String) : ChannelOp → Bool
  | .update _ doc _ => doc._id == channelId
  | .insert channel => channel._id == channelId
  | _ => false

/-- The queued operation on `MessageDB` would store a message of this channel. -/
def storesId (channelId : String) : MessageOp → Bool
  | .insert msg => msg.channelId == channelId
  | _ => false

/-- Nothing of the channel is left: no document, no message, and no queued
operation that would write one. -/
def Gone (channelId : String) (sv : Server) : Prop :=
  findOne sv.channels channelId = none ∧
  (∀ m ∈ sv.messages, m.channelId ≠ channelId) ∧
  (∀ op ∈ sv.channelQueue, writesId channelId op = false) ∧
  (∀ op ∈ sv.messageQueue, storesId channelId op = false)

/-- A queued write on `ChannelDB` carries a document whose `_id` is the decimal
text of a clock reading, and an `update` is addressed to the `_id` of its
document. -/
def WellQueued : ChannelOp → Prop
  | .update channelId doc _ => doc._id = channelId ∧ ∃ t : Nat, doc._id = toString t
  | .insert channel => ∃ t : Nat, channel._id = toString t
  | _ => True

/-- The `_id`s of the channel store are pairwise different decimal texts of
clock readings, and the queue on `ChannelDB` is well queued. -/
def Sound (sv : Server) : Prop :=
  (sv.channels.map (fun c => c._id)).Nodup ∧
  (∀ c ∈ sv.channels, ∃ t : Nat, c._id = toString t) ∧
  (∀ op ∈ sv.channelQueue, WellQueued op)

/-! ## Sample data -/

/-- A `manage-channel` body with the fields an action on a user reads. -/
def moderation (channelId creator action targetUser : String) : ManageReq :=
  { channelId := channelId, creator := creator, action := action, newName := "",
    newPassword := none, targetUser := targetUser }

/-- Alice creates the channel `team` with password `pw` at time 1 and bob joins it. -/
def teamTrace : List Event :=
  [.createChannel "team" (some "pw") "alice" 1 1, .joinChannel "1" "bob" (some "pw")]

/-- The store after `teamTrace`. -/
def teamState : State := run init teamTrace

/-- The channel `team` in `teamState`. -/
def teamChannel : Channel :=
  { _id := "1", name := "team", creator := "alice", password := some "pw",
    members := ["alice", "bob"], mutedUsers := [], bannedUsers := [], createdAt := 1 }

/-- The arrivals and queue steps of `teamTrace`, one request after the other. -/
def teamTicks : List Tick :=
  alone (.createChannel "team" (some "pw") "alice" 1 1) ++
    alone (.joinChannel "1" "bob" (some "pw"))

/-- The server at rest after `teamTicks`. -/
def teamServer : Server := (exec (atRest init) teamTicks).1

/-- The server after alice's `dissolve` of `team`, handled alone. -/
def dissolvedServer : Server :=
  (exec teamServer (alone (.manageChannel (moderation "1" "alice" "dissolve" "")))).1

/-- Later arrivals and queue steps: a message to the dissolved channel arrives
and is looked up, a public message and a new channel arrive, and a
`join-channel` for the dissolved channel waits in the queue. -/
def laterTicks : List Tick :=
  [.arrive (.channelMessage "1" "bob" "hi" 5 6), .channelDB,
   .arrive (.publicMessage "bob" "hi" 7 8),
   .arrive (.joinChannel "1" "bob" (some "pw")), .messageDB,
   .arrive (.createChannel "next" none "bob" 9 9)]

/-- The server after `laterTicks`: the `join-channel` for the dissolved channel
is the oldest operation queued on `ChannelDB`. -/
def waitingServer : Server := (exec dissolvedServer laterTicks).1

/-- The `dissolve` of `team` with a `channel-message` of alice in flight: both
requests arrive before NeDB runs the first `findOne`. -/
def racingTicks : List Tick :=
  [.arrive (.manageChannel (moderation "1" "alice" "dissolve" "")),
   .arrive (.channelMessage "1" "alice" "hi" 5 6),
   .channelDB, .channelDB, .channelDB, .messageDB, .messageDB]

/-- The store after `teamTrace` and alice's `ban` of bob. -/
def bannedState : State :=
  run init (teamTrace ++ [.manageChannel (moderation "1" "alice" "ban" "bob")])

/-- Alice creates the channel `lobby` with the empty password at time 1. -/
def lobbyState : State := run init [.createChannel "lobby" (some "") "alice" 1 1]

/-! ## Lemmas on the store -/

theorem findOne_some {l : List Channel} {channelId : String} {c : Channel}
    (h : findOne l channelId = some c) : c._id = channelId ∧ c ∈ l := by
  unfold findOne at h
  exact ⟨by simpa using List.find?_some h, List.mem_of_find?_eq_some h⟩

theorem findOne_cons (a : Channel) (l : List Channel) (channelId : String) :
    findOne (a :: l) channelId = if a._id = channelId then some a else findOne l channelId := by
  by_cases h : a._id = channelId <;> simp [findOne, List.find?_cons, h]

theorem update_cons (a : Channel) (l : List Channel) (channelId : String) (doc : Channel) :
    update (a :: l) channelId doc =
      if a._id = channelId then doc :: l else a :: update l channelId doc := by
  by_cases h : a._id = channelId <;> simp [update, h]

theorem removeOne_cons (a : Channel) (l : List Channel) (channelId : String) :
    removeOne (a :: l) channelId =
      if a._id = channelId then l else a :: removeOne l channelId := by
  by_cases h : a._id = channelId <;> simp [removeOne, h]

theorem findOne_update_same {l : List Channel} {channelId : String} {c doc : Channel}
    (h : findOne l channelId = some c) (hdoc : doc._id = channelId) :
    findOne (update l channelId doc) channelId = some doc := by
  induction l with
  | nil => simp [findOne] at h
  | cons a l ih =>
    rw [findOne_cons] at h
    rw [update_cons]
    by_cases ha : a._id = channelId
    · rw [if_pos ha, findOne_cons, if_pos hdoc]
    · rw [if_neg ha] at h
      rw [if_neg ha, findOne_cons, if_neg ha]
      exact ih h

theorem mem_update {l : List Channel} {channelId : String} {doc x : Channel}
    (h : x ∈ update l channelId doc) : x = doc ∨ x ∈ l := by
  induction l with
  | nil => simp [update] at h
  | cons a l ih =>
    by_cases ha : a._id = channelId
    · simp [update, ha] at h
      rcases h with h | h
      · exact Or.inl h
      · exact Or.inr (List.mem_cons_of_mem _ h)
    · simp [update, ha] at h
      rcases h with h | h
      · exact Or.inr (h ▸ List.mem_cons_self _ _)
      · rcases ih h with h | h
        · exact Or.inl h
        · exact Or.inr (List.mem_cons_of_mem _ h)

theorem update_update {l : List Channel} {channelId : String} {doc : Channel}
    (hdoc : doc._id = channelId) :
    update (update l channelId doc) channelId doc = update l channelId doc := by
  induction l with
  | nil => simp [update]
  | cons a l ih =>
    by_cases ha : a._id = channelId
    · simp [update, ha, hdoc]
    · simp [update, ha, ih]

theorem map_id_update {l : List Channel} {channelId : String} {doc : Channel}
    (hdoc : doc._id = channelId) :
    (update l channelId doc).map (fun c => c._id) = l.map (fun c => c._id) := by
  induction l with
  | nil => simp [update]
  | cons a l ih =>
    by_cases ha : a._id = channelId
    · simp [update, ha, hdoc]
    · simp [update, ha, ih]

theorem mem_removeOne {l : List Channel} {channelId : String} {x : Channel}
    (h : x ∈ removeOne l channelId) : x ∈ l := by
  induction l with
  | nil => simp [removeOne] at h
  | cons a l ih =>
    by_cases ha : a._id = channelId
    · simp [removeOne, ha] at h
      exact List.mem_cons_of_mem _ h
    · simp [removeOne, ha] at h
      rcases h with h | h
      · exact h ▸ List.mem_cons_self _ _
      · exact List.mem_cons_of_mem _ (ih h)

theorem findOne_eq_none_iff {l : List Channel} {channelId : String} :
    findOne l channelId = none ↔ channelId ∉ l.map (fun c => c._id) := by
  induction l with
  | nil => simp [findOne]
  | cons a l ih =>
    rw [findOne_cons]
    by_cases ha : a._id = channelId
    · simp [ha]
    · have ha' : ¬ channelId = a._id := fun h => ha h.symm
      rw [if_neg ha, ih]
      simp [ha']

theorem map_id_removeOne_sublist (l : List Channel) (channelId : String) :
    ((removeOne l channelId).map (fun c => c._id)).Sublist (l.map (fun c => c._id)) := by
  induction l with
  | nil => simp [removeOne]
  | cons a l ih =>
    by_cases ha : a._id = channelId
    · simp [removeOne, ha]
    · simpa [removeOne, ha] using ih

theorem findOne_removeOne_same {l : List Channel} {channelId : String}
    (hnd : (l.map (fun c => c._id)).Nodup) :
    findOne (removeOne l channelId) channelId = none := by
  induction l with
  | nil => simp [removeOne, findOne]
  | cons a l ih =>
    simp only [List.map_cons, List.nodup_cons] at hnd
    by_cases ha : a._id = channelId
    · simp only [removeOne, ha, beq_self_eq_true, if_true]
      exact findOne_eq_none_iff.2 (ha ▸ hnd.1)
    · simpa [removeOne, findOne, List.find?_cons, ha] using ih hnd.2

/-! ## The `switch` case by case -/

theorem switchAction_mute {channel : Channel} {req : ManageReq} (h : req.action = "mute") :
    switchAction channel req =
      .update (if channel.mutedUsers.contains req.targetUser then channel
        else { channel with mutedUsers := channel.mutedUsers ++ [req.targetUser] }) false := by
  simp [switchAction, h]

theorem switchAction_ban {channel : Channel} {req : ManageReq} (h : req.action = "ban") :
    switchAction channel req =
      .update { channel with
        bannedUsers := channel.bannedUsers ++ [req.targetUser]
        members := channel.members.filter (fun u => u != req.targetUser) } false := by
  simp [switchAction, h]

theorem switchAction_unban {channel : Channel} {req : ManageReq} (h : req.action = "unban") :
    switchAction channel req =
      .update { channel with
        bannedUsers := channel.bannedUsers.filter (fun u => u != req.targetUser) } false := by
  simp [switchAction, h]

theorem switchAction_dissolve {channel : Channel} {req : ManageReq}
    (h : req.action = "dissolve") : switchAction channel req = .dissolve := by
  simp [switchAction, h]

/-- Whatever the action, a channel that goes on to `ChannelDB.update` keeps its
`_id` and its `creator`. -/
theorem switchAction_update_id {channel channel' : Channel} {req : ManageReq} {clear : Bool}
    (h : switchAction channel req = .update channel' clear) :
    channel'._id = channel._id ∧ channel'.creator = channel.creator := by
  unfold switchAction at h
  split_ifs at h <;> simp only [Outcome.update.injEq, reduceCtorEq] at h <;>
    (obtain ⟨h, -⟩ := h; subst h; exact ⟨rfl, rfl⟩)

/-! ## Claims on single requests -/

/-- C4: on an existing channel, a `manage-channel` request whose acting user is
not the channel's creator is answered 403 whatever its action is, and that is
all it does: both collections are as before and nothing is broadcast. -/
theorem manageChannel_forbidden (s : State) (req : ManageReq) (channel : Channel)
    (hfind : findOne s.channels req.channelId = some channel)
    (hne : channel.creator ≠ req.creator) :
    manageChannel s req = (s, [.respond 403 "你不是频道创建者"]) := by
  simp [manageChannel, manageCallback, hfind, hne]

/-- C5: on an existing channel, `channel-message` is rejected exactly when the
sender is in `mutedUsers`; a rejected message only sends `message-fail` to the
sender and leaves the stores alone, an accepted one is sent once to the channel
room and appended once to the message store. -/
theorem channelMessage_spec (s : State) (channelId username content : String)
    (tSend tStore : Nat) (channel : Channel)
    (hfind : findOne s.channels channelId = some channel) :
    (Effect.socketEmit "message-fail" (.text "你已被禁言") ∈
        (channelMessage s channelId username content tSend tStore).2 ↔
      username ∈ channel.mutedUsers) ∧
    (username ∈ channel.mutedUsers →
      channelMessage s channelId username content tSend tStore =
        (s, [.socketEmit "message-fail" (.text "你已被禁言")])) ∧
    (username ∉ channel.mutedUsers →
      channelMessage s channelId username content tSend tStore =
        ({ channels := s.channels
           messages := s.messages ++ [⟨channelId, username, content, tStore⟩] },
         [.ioToEmit channelId "new-channel-message"
            (.msgData ⟨username, content, tSend⟩)])) := by
  by_cases hm : username ∈ channel.mutedUsers <;>
    simp [channelMessage, hfind, hm]

theorem manageChannel_forbidden_witness :
    manageChannel teamState (moderation "1" "bob" "dissolve" "alice") =
      (teamState, [.respond 403 "你不是频道创建者"]) :=
  manageChannel_forbidden teamState (moderation "1" "bob" "dissolve" "alice") teamChannel
    (by decide) (by decide)

theorem channelMessage_spec_witness :
    channelMessage teamState "1" "bob" "hi" 5 6 =
      ({ channels := teamState.channels
         messages := teamState.messages ++ [⟨"1", "bob", "hi", 6⟩] },
       [.ioToEmit "1" "new-channel-message" (.msgData ⟨"bob", "hi", 5⟩)]) :=
  (channelMessage_spec teamState "1" "bob" "hi" 5 6 teamChannel (by decide)).2.2 (by decide)

/-- What a `manage-channel` request of the creator does when the `switch`
leaves by `break`. -/
theorem manageChannel_update {s : State} {req : ManageReq} {channel channel' : Channel}
    {clear : Bool} (hfind : findOne s.channels req.channelId = some channel)
    (hcreator : channel.creator = req.creator)
    (hswitch : switchAction channel req = .update channel' clear) :
    manageChannel s req =
        ({ channels := update s.channels req.channelId channel'
           messages := if clear then removeMessages s.messages req.channelId
                       else s.messages },
         [.ioEmit "channel-updated" (.channel channel'), .respond 200 "操作成功"]) ∧
      findOne (manageChannel s req).1.channels req.channelId = some channel' := by
  have h1 : manageChannel s req =
        ({ channels := update s.channels req.channelId channel'
           messages := if clear then removeMessages s.messages req.channelId
                       else s.messages },
         [.ioEmit "channel-updated" (.channel channel'), .respond 200 "操作成功"]) := by
    simp [manageChannel, manageCallback, hfind, hcreator, hswitch]
  refine ⟨h1, ?_⟩
  rw [h1]
  exact findOne_update_same hfind
    ((switchAction_update_id hswitch).1.trans (findOne_some hfind).1)

/-- C8: `mute` is idempotent: a second identical `mute` request leaves both
collections (so the whole channel record, `mutedUsers` included) as the first
one left them; and after the creator's request the target is muted. -/
theorem mute_idempotent (s : State) (req : ManageReq) (hmute : req.action = "mute") :
    (manageChannel (manageChannel s req).1 req).1 = (manageChannel s req).1 ∧
    ∀ channel, findOne s.channels req.channelId = some channel →
      channel.creator = req.creator →
      ∃ channel', findOne (manageChannel s req).1.channels req.channelId = some channel' ∧
        req.targetUser ∈ channel'.mutedUsers := by
  have key : ∀ channel, findOne s.channels req.channelId = some channel →
      channel.creator = req.creator →
      ∃ channel', switchAction channel req = .update channel' false ∧
        req.targetUser ∈ channel'.mutedUsers := by
    intro channel _ _
    refine ⟨_, switchAction_mute hmute, ?_⟩
    by_cases hin : req.targetUser ∈ channel.mutedUsers <;> simp [hin]
  constructor
  · cases hfind : findOne s.channels req.channelId with
    | none => simp [manageChannel, manageCallback, hfind]
    | some channel =>
      by_cases hcreator : channel.creator = req.creator
      · obtain ⟨channel', hswitch, hin⟩ := key channel hfind hcreator
        obtain ⟨h1, h2⟩ := manageChannel_update hfind hcreator hswitch
        have hid := switchAction_update_id hswitch
        have hswitch' : switchAction channel' req = .update channel' false := by
          rw [switchAction_mute hmute]; simp [hin]
        have h3 := (manageChannel_update h2 (hid.2.trans hcreator) hswitch').1
        rw [h3, h1]
        simp [update_update (hid.1.trans (findOne_some hfind).1)]
      · simp [manageChannel, manageCallback, hfind, hcreator]
  · intro channel hfind hcreator
    obtain ⟨channel', hswitch, hin⟩ := key channel hfind hcreator
    exact ⟨channel', (manageChannel_update hfind hcreator hswitch).2, hin⟩

theorem mute_idempotent_witness :
    (manageChannel (manageChannel teamState (moderation "1" "alice" "mute" "bob")).1
        (moderation "1" "alice" "mute" "bob")).1 =
      (manageChannel teamState (moderation "1" "alice" "mute" "bob")).1 :=
  (mute_idempotent teamState (moderation "1" "alice" "mute" "bob") (by decide)).1

/-- C2, as stated, fails: the channel `lobby` has the empty password, bob joins
with the password `x`, which differs from it, and is admitted and added to
`members`; and in `bannedState` the banned bob, giving a wrong password to
`team`, is told that he is banned, not that the password is wrong. -/
theorem joinChannel_wrong_password_admitted :
    (findOne lobbyState.channels "1" =
        some { _id := "1", name := "lobby", creator := "alice", password := some "",
               members := ["alice"], mutedUsers := [], bannedUsers := [], createdAt := 1 } ∧
      (some "" : Option String) ≠ some "x" ∧
      (joinChannel lobbyState "1" "bob" (some "x")).2 ≠
        [.socketEmit "join-fail" (.text "密码错误")] ∧
      (findOne (joinChannel lobbyState "1" "bob" (some "x")).1.channels "1").map
        (fun c => c.members) = some ["alice", "bob"]) ∧
    ((findOne bannedState.channels "1").map (fun c => c.password) = some (some "pw") ∧
      joinChannel bannedState "1" "bob" (some "wrong") =
        (bannedState, [.socketEmit "join-fail" (.text "你已被封禁")])) := by
  decide

/-- C2, amended: on an existing channel with a non-empty password, a user who is
not banned and gives another password gets `join-fail` with the text of
BadPassword, and that is all: the stores (so `members`) are as before. -/
theorem joinChannel_bad_password (s : State) (channelId username : String)
    (password : Option String) (channel : Channel)
    (hfind : findOne s.channels channelId = some channel)
    (hbanned : username ∉ channel.bannedUsers)
    (hset : truthy channel.password = true)
    (hne : channel.password ≠ password) :
    joinChannel s channelId username password =
      (s, [.socketEmit "join-fail" (.text "密码错误")]) := by
  simp [joinChannel, hfind, hbanned, hset, hne]

theorem joinChannel_bad_password_witness :
    joinChannel teamState "1" "carol" (some "wrong") =
      (teamState, [.socketEmit "join-fail" (.text "密码错误")]) :=
  joinChannel_bad_password teamState "1" "carol" (some "wrong") teamChannel
    (by decide) (by decide) (by decide) (by decide)

/-- C10: `channel-message` looks at `mutedUsers` only: in a reachable store bob
is banned from the channel, hence no member of it, but not muted, and his
message is sent to the channel room and appended to the message store. -/
theorem banned_user_still_speaks :
    ∃ (s : State) (channel : Channel), Reachable s ∧
      findOne s.channels "1" = some channel ∧
      "bob" ∈ channel.bannedUsers ∧ "bob" ∉ channel.members ∧
      "bob" ∉ channel.mutedUsers ∧
      channelMessage s "1" "bob" "hi" 5 6 =
        ({ channels := s.channels, messages := s.messages ++ [⟨"1", "bob", "hi", 6⟩] },
         [.ioToEmit "1" "new-channel-message" (.msgData ⟨"bob", "hi", 5⟩)]) :=
  ⟨run init (teamTrace ++ [.manageChannel (moderation "1" "alice" "ban" "bob")]),
   { teamChannel with members := ["alice"], bannedUsers := ["bob"] },
   ⟨_, rfl⟩, by decide, by decide, by decide, by decide, by decide⟩

/-! ## Ban and unban -/

/-- The creator's `ban` on an existing channel. -/
theorem manageChannel_ban {s : State} {req : ManageReq} {channel : Channel}
    (hfind : findOne s.channels req.channelId = some channel)
    (hcreator : channel.creator = req.creator) (hban : req.action = "ban") :
    findOne (manageChannel s req).1.channels req.channelId =
      some { channel with
        bannedUsers := channel.bannedUsers ++ [req.targetUser]
        members := channel.members.filter (fun u => u != req.targetUser) } :=
  (manageChannel_update hfind hcreator (switchAction_ban hban)).2

theorem run_nil (s : State) : run s [] = s := rfl

theorem run_cons (s : State) (ev : Event) (events : List Event) :
    run s (ev :: events) = run (step s ev).1 events := rfl

theorem run_append (s : State) (xs ys : List Event) :
    run s (xs ++ ys) = run (run s xs) ys := by
  simp [run, List.foldl_append]

/-- After one or more `ban`s of the creator the target is no member. -/
theorem run_bans {req : ManageReq} (hban : req.action = "ban") (n : Nat) :
    ∀ {s : State} {channel : Channel},
      findOne s.channels req.channelId = some channel →
      channel.creator = req.creator →
      ∃ channel', findOne (run s (List.replicate (n + 1) (.manageChannel req))).channels
          req.channelId = some channel' ∧
        channel'.creator = req.creator ∧ req.targetUser ∉ channel'.members := by
  induction n with
  | zero =>
    intro s channel hfind hcreator
    have h := manageChannel_ban hfind hcreator hban
    refine ⟨_, h, hcreator, ?_⟩
    simp
  | succ n ih =>
    intro s channel hfind hcreator
    have h := manageChannel_ban hfind hcreator hban
    obtain ⟨channel', h1, h2, h3⟩ := ih h hcreator
    exact ⟨channel', h1, h2, h3⟩

/-- C7: whatever `members` and `bannedUsers` of the channel are before, after
the creator bans a user one or more times and then unbans them, the user is
neither in `bannedUsers` nor in `members`. -/
theorem ban_then_unban (s : State) (ban unban : ManageReq) (channel : Channel) (n : Nat)
    (hfind : findOne s.channels ban.channelId = some channel)
    (hcreator : channel.creator = ban.creator)
    (hban : ban.action = "ban") (hunban : unban.action = "unban")
    (hid : unban.channelId = ban.channelId) (hactor : unban.creator = ban.creator)
    (htarget : unban.targetUser = ban.targetUser) :
    ∃ channel', findOne (run s (List.replicate (n + 1) (.manageChannel ban) ++
          [.manageChannel unban])).channels ban.channelId = some channel' ∧
      ban.targetUser ∉ channel'.bannedUsers ∧ ban.targetUser ∉ channel'.members := by
  obtain ⟨c1, h1, h2, h3⟩ := run_bans hban n hfind hcreator
  have h4 := (@manageChannel_update _ unban _ _ _ (hid ▸ h1) (h2.trans hactor.symm)
    (switchAction_unban hunban)).2
  rw [hid] at h4
  refine ⟨{ c1 with bannedUsers := c1.bannedUsers.filter (fun u => u != unban.targetUser) },
    ?_, ?_, ?_⟩
  · rw [run_append]
    exact h4
  · simp [htarget]
  · exact h3

theorem ban_then_unban_witness :
    ∃ channel', findOne (run teamState (List.replicate (1 + 1)
          (.manageChannel (moderation "1" "alice" "ban" "bob")) ++
          [.manageChannel (moderation "1" "alice" "unban" "bob")])).channels "1" =
          some channel' ∧
      "bob" ∉ channel'.bannedUsers ∧ "bob" ∉ channel'.members :=
  ban_then_unban teamState (moderation "1" "alice" "ban" "bob")
    (moderation "1" "alice" "unban" "bob") teamChannel 1
    (by decide) (by decide) (by decide) (by decide) (by decide) (by decide) (by decide)

/-! ## Invariants of the channel store -/

/-- Where a channel of the store after an event comes from: it was there
before, or `create-channel` made it, or it is the local copy a `manage-channel`
of the creator wrote back, or the copy `join-channel` wrote back with the new
member. -/
theorem mem_step_channels {s : State} {ev : Event} {x : Channel}
    (hx : x ∈ (step s ev).1.channels) :
    x ∈ s.channels ∨
    (∃ name password creator tId tCreated,
      ev = .createChannel name password creator tId tCreated ∧
      x = { _id := toString tId, name := name, creator := creator, password := password,
            members := [creator], mutedUsers := [], bannedUsers := [],
            createdAt := tCreated }) ∨
    (∃ req c clear, ev = .manageChannel req ∧
      findOne s.channels req.channelId = some c ∧ c.creator = req.creator ∧
      switchAction c req = .update x clear) ∨
    (∃ channelId username password c, ev = .joinChannel channelId username password ∧
      findOne s.channels channelId = some c ∧ username ∉ c.bannedUsers ∧
      x = { c with members := c.members ++ [username] }) := by
  cases ev with
  | manageChannel req =>
    simp only [step, manageChannel] at hx
    cases hfind : findOne s.channels req.channelId with
    | none =>
      rw [hfind] at hx
      exact Or.inl hx
    | some c =>
      rw [hfind] at hx
      by_cases hcreator : c.creator = req.creator
      · cases hswitch : switchAction c req with
        | update c' clear =>
          simp only [manageCallback, hcreator, hswitch, ne_eq, not_true_eq_false,
            if_false] at hx
          rcases mem_update hx with h | h
          · exact Or.inr (Or.inr (Or.inl ⟨req, c, clear, rfl, hfind, hcreator, h ▸ hswitch⟩))
          · exact Or.inl h
        | dissolve =>
          simp only [manageCallback, hcreator, hswitch, ne_eq, not_true_eq_false,
            if_false] at hx
          exact Or.inl (mem_removeOne hx)
        | invalid =>
          simp only [manageCallback, hcreator, hswitch, ne_eq, not_true_eq_false,
            if_false] at hx
          exact Or.inl hx
      · simp only [manageCallback, ne_eq, hcreator, not_false_eq_true, if_true] at hx
        exact Or.inl hx
  | joinPublic username => exact Or.inl hx
  | publicMessage username content tSend tStore => exact Or.inl hx
  | createChannel name password creator tId tCreated =>
    simp only [step, createChannel, ChatApp.insert] at hx
    split_ifs at hx with h
    · exact Or.inl hx
    · simp only [List.mem_append, List.mem_singleton] at hx
      rcases hx with h | h
      · exact Or.inl h
      · exact Or.inr (Or.inl ⟨name, password, creator, tId, tCreated, rfl, h⟩)
  | joinChannel channelId username password =>
    simp only [step, joinChannel] at hx
    cases hfind : findOne s.channels channelId with
    | none =>
      rw [hfind] at hx
      exact Or.inl hx
    | some c =>
      rw [hfind] at hx
      simp only at hx
      split_ifs at hx with h1 h2 h3
      · exact Or.inl hx
      · exact Or.inl hx
      · exact Or.inl hx
      · rcases mem_update hx with h | h
        · refine Or.inr (Or.inr (Or.inr ⟨channelId, username, password, c, rfl, hfind, ?_, h⟩))
          simpa using h1
        · exact Or.inl h
  | channelMessage channelId username content tSend tStore =>
    simp only [step, channelMessage] at hx
    cases hfind : findOne s.channels channelId with
    | none =>
      rw [hfind] at hx
      exact Or.inl hx
    | some c =>
      rw [hfind] at hx
      simp only at hx
      split_ifs at hx <;> exact Or.inl hx

/-- Induction over a trace for a property of the channels of the store: it is
enough that `create-channel` establishes it and that the write-backs of
`manage-channel` (for the events `ok` allows) and of `join-channel` keep it. -/
theorem run_channels_induction (P : Channel → Prop) (ok : Event → Prop)
    (hcreate : ∀ (name : String) (password : Option String) (creator : String)
        (tId tCreated : Nat),
      P { _id := toString tId, name := name, creator := creator, password := password,
          members := [creator], mutedUsers := [], bannedUsers := [],
          createdAt := tCreated })
    (hmanage : ∀ req c x clear, ok (.manageChannel req) → P c → c.creator = req.creator →
      switchAction c req = .update x clear → P x)
    (hjoin : ∀ c username, P c → username ∉ c.bannedUsers →
      P { c with members := c.members ++ [username] }) :
    ∀ (events : List Event) (s : State), (∀ c ∈ s.channels, P c) →
      (∀ ev ∈ events, ok ev) → ∀ c ∈ (run s events).channels, P c := by
  intro events
  induction events with
  | nil => intro s hs _ c hc; exact hs c hc
  | cons ev events ih =>
    intro s hs hok
    rw [run_cons]
    refine ih _ ?_ (fun e he => hok e (List.mem_cons_of_mem _ he))
    intro x hx
    rcases mem_step_channels hx with h | ⟨_, _, _, _, _, -, h⟩ |
      ⟨req, c, clear, hev, hfind, hcreator, hswitch⟩ | ⟨_, username, _, c, -, hfind, hb, h⟩
    · exact hs x h
    · exact h ▸ hcreate _ _ _ _ _
    · exact hmanage req c x clear (hev ▸ hok ev (List.mem_cons_self _ _))
        (hs c (findOne_some hfind).2) hcreator hswitch
    · exact h ▸ hjoin c username (hs c (findOne_some hfind).2) hb

/-- The write-back of `manage-channel` keeps `bannedUsers` and `members`
disjoint. -/
theorem switchAction_keeps_disjoint {c x : Channel} {req : ManageReq} {clear : Bool}
    (hc : ∀ u, u ∈ c.bannedUsers → u ∉ c.members)
    (hswitch : switchAction c req = .update x clear) :
    ∀ u, u ∈ x.bannedUsers → u ∉ x.members := by
  unfold switchAction at hswitch
  split_ifs at hswitch <;> simp only [Outcome.update.injEq, reduceCtorEq] at hswitch <;>
    obtain ⟨rfl, -⟩ := hswitch
  · exact hc
  · exact hc
  · exact hc
  · exact hc
  · exact hc
  · intro u hu hm
    simp only [List.mem_append, List.mem_singleton] at hu
    simp only [List.mem_filter, bne_iff_ne, ne_eq] at hm
    rcases hu with hu | hu
    · exact hc u hu hm.1
    · exact hm.2 hu
  · intro u hu
    simp only [List.mem_filter] at hu
    exact hc u hu.1
  · exact hc

/-- C1: in every store reached from the empty one by any sequence of events
(`create-channel`, every `manage-channel` action, `join-channel`, messages), no
channel has a username both in `bannedUsers` and in `members`. -/
theorem banned_not_member (events : List Event) (c : Channel) (u : String)
    (hc : c ∈ (run init events).channels) : ¬ (u ∈ c.bannedUsers ∧ u ∈ c.members) := by
  have h := run_channels_induction (fun c => ∀ u, u ∈ c.bannedUsers → u ∉ c.members)
    (fun _ => True)
    (by intro _ _ _ _ _ u hu; simp at hu)
    (by intro req c x clear _ hP _ hswitch; exact switchAction_keeps_disjoint hP hswitch)
    (by
      intro c username hP hb u hu hm
      simp only [List.mem_append, List.mem_singleton] at hm
      rcases hm with hm | hm
      · exact hP u hu hm
      · exact hb (hm ▸ hu))
    events init (by intro c hc; simp [init] at hc) (fun _ _ => trivial) c hc
  exact fun ⟨hb, hm⟩ => h u hb hm

theorem banned_not_member_witness :
    ¬ ("bob" ∈ ({ teamChannel with members := ["alice"], bannedUsers := ["bob"] } :
          Channel).bannedUsers ∧
        "bob" ∈ ({ teamChannel with members := ["alice"], bannedUsers := ["bob"] } :
          Channel).members) :=
  banned_not_member (teamTrace ++ [.manageChannel (moderation "1" "alice" "ban" "bob")])
    { teamChannel with members := ["alice"], bannedUsers := ["bob"] } "bob" (by decide)

/-- C3, as stated, fails: alice creates a channel and bans herself; the channel
stays in the store with creator alice, who is no member of it any more. -/
theorem creator_self_ban_leaves :
    ∃ c ∈ (run init [.createChannel "team" (some "pw") "alice" 1 1,
        .manageChannel (moderation "1" "alice" "ban" "alice")]).channels,
      c.creator = "alice" ∧ c.creator ∉ c.members :=
  ⟨{ _id := "1", name := "team", creator := "alice", password := some "pw",
     members := [], mutedUsers := [], bannedUsers := ["alice"], createdAt := 1 },
   by decide, by decide, by decide⟩

/-- C3, amended: in every store reached from the empty one by a sequence of
events none of which is a `ban` whose target is the acting user, the creator of
every channel is one of its members. -/
theorem creator_member (events : List Event) (hok : ∀ ev ∈ events, selfBan ev = false)
    (c : Channel) (hc : c ∈ (run init events).channels) : c.creator ∈ c.members := by
  refine run_channels_induction (fun c => c.creator ∈ c.members)
    (fun ev => selfBan ev = false)
    (by intro _ _ _ _ _; simp)
    ?_
    (by intro c username hP _; simp [hP])
    events init (by intro c hc; simp [init] at hc) hok c hc
  intro req c x clear hself hP hcreator hswitch
  unfold switchAction at hswitch
  split_ifs at hswitch <;>
    simp only [Outcome.update.injEq, reduceCtorEq] at hswitch <;>
    obtain ⟨rfl, -⟩ := hswitch
  · exact hP
  · exact hP
  · exact hP
  · exact hP
  · exact hP
  · have hban : req.action = "ban" := by assumption
    have hne : ¬ req.targetUser = req.creator := by
      simpa [selfBan, hban] using hself
    simp only [List.mem_filter, bne_iff_ne, ne_eq]
    exact ⟨hP, fun h => hne (h.symm.trans hcreator)⟩
  · exact hP
  · exact hP

theorem creator_member_witness : teamChannel.creator ∈ teamChannel.members :=
  creator_member teamTrace (by decide) teamChannel (by decide)

/-! ## Channel ids -/

theorem digitChar_ne_p : ∀ k, k < 10 → Nat.digitChar k ≠ 'p' := by
  decide

theorem toDigitsCore_ne_p (fuel : Nat) : ∀ (n : Nat) (ds : List Char),
    'p' ∉ ds → 'p' ∉ Nat.toDigitsCore 10 fuel n ds := by
  induction fuel with
  | zero => intro n ds h; simpa [Nat.toDigitsCore] using h
  | succ fuel ih =>
    intro n ds h
    have hcons : 'p' ∉ Nat.digitChar (n % 10) :: ds := by
      simp only [List.mem_cons, not_or]
      exact ⟨fun e => digitChar_ne_p _ (Nat.mod_lt _ (by decide)) e.symm, h⟩
    simp only [Nat.toDigitsCore]
    split_ifs
    · exact hcons
    · exact ih _ _ hcons

/-- A channel id, the decimal text of a clock reading, is never the room name
of the public chat. -/
theorem toString_ne_public (t : Nat) : toString t ≠ "public-chat" := by
  intro h
  have h1 : 'p' ∉ Nat.toDigits 10 t := toDigitsCore_ne_p _ _ _ (by simp)
  have h2 : (toString t).data = Nat.toDigits 10 t := rfl
  rw [h] at h2
  rw [← h2] at h1
  exact h1 (by decide)

/-! ## Requests in flight -/

/-- A request handled with nothing else in flight does to the store, and emits,
what the handler of `step` says. -/
theorem exec_alone (s : State) (ev : Event) :
    exec (atRest s) (alone ev) = (atRest (step s ev).1, (step s ev).2) := by
  cases ev with
  | manageChannel req =>
    cases hfind : findOne s.channels req.channelId with
    | none => simp [alone, exec, tick, arrive, channelOp, atRest, step, manageChannel, manageCallback, hfind]
    | some c =>
      by_cases hcreator : c.creator = req.creator
      · cases hswitch : switchAction c req with
        | update c' clear =>
          cases clear <;>
          simp [alone, exec, tick, arrive, channelOp, messageOp, atRest, step, manageChannel, manageCallback, hfind, hcreator, hswitch]
        | dissolve =>
          simp [alone, exec, tick, arrive, channelOp, messageOp, atRest, step, manageChannel, manageCallback, hfind, hcreator, hswitch]
        | invalid =>
          simp [alone, exec, tick, arrive, channelOp, messageOp, atRest, step, manageChannel, manageCallback, hfind, hcreator, hswitch]
      · simp [alone, exec, tick, arrive, channelOp, atRest, step, manageChannel, manageCallback, hfind, hcreator]
  | joinPublic username => simp [alone, exec, tick, arrive, atRest, step, joinPublic]
  | publicMessage username content tSend tStore =>
    simp [alone, exec, tick, arrive, messageOp, atRest, step, publicMessage]
  | createChannel name password creator tId tCreated =>
    cases hfind : findOne s.channels (toString tId) <;>
    simp [alone, exec, tick, arrive, channelOp, atRest, step, createChannel, ChatApp.insert, hfind]
  | joinChannel channelId username password =>
    cases hfind : findOne s.channels channelId with
    | none => simp [alone, exec, tick, arrive, channelOp, atRest, step, joinChannel, hfind]
    | some c =>
      by_cases h1 : username ∈ c.bannedUsers
      · simp [alone, exec, tick, arrive, channelOp, atRest, step, joinChannel, hfind, h1]
      · by_cases h2 : truthy c.password = true ∧ ¬ c.password = password
        · simp [alone, exec, tick, arrive, channelOp, atRest, step, joinChannel, hfind, h1, h2]
        · by_cases h3 : username ∈ c.members
          · simp [alone, exec, tick, arrive, channelOp, messageOp, atRest, step, joinChannel,
              hfind, h1, h2, h3]
          · simp [alone, exec, tick, arrive, channelOp, messageOp, atRest, step, joinChannel,
              hfind, h1, h2, h3]
  | channelMessage channelId username content tSend tStore =>
    cases hfind : findOne s.channels channelId with
    | none => simp [alone, exec, tick, arrive, channelOp, atRest, step, channelMessage, hfind]
    | some c =>
      by_cases h1 : username ∈ c.mutedUsers <;>
      simp [alone, exec, tick, arrive, channelOp, messageOp, atRest, step, channelMessage, hfind, h1]

/-! ### The well-formedness of the store -/

theorem arrive_sound {sv : Server} (ev : Event) (h : Sound sv) : Sound (arrive sv ev).1 := by
  obtain ⟨h1, h2, h3⟩ := h
  cases ev <;> refine ⟨h1, h2, ?_⟩ <;> simp only [arrive] <;> try exact h3
  all_goals
    intro op hop
    simp only [List.mem_append, List.mem_singleton] at hop
    rcases hop with hop | rfl
    · exact h3 op hop
    · simp [WellQueued]

theorem channelOp_sound {sv : Server} (op : ChannelOp) (h : Sound sv) (hop : WellQueued op) :
    Sound (channelOp sv op).1 := by
  obtain ⟨h1, h2, h3⟩ := h
  have hadd : ∀ {id : String} {doc c : Channel} {reply : Bool},
      findOne sv.channels id = some c → doc._id = c._id →
      ∀ op ∈ sv.channelQueue ++ [ChannelOp.update id doc reply], WellQueued op := by
    intro id doc c reply hfind hdoc op hmem
    simp only [List.mem_append, List.mem_singleton] at hmem
    rcases hmem with hmem | rfl
    · exact h3 op hmem
    · obtain ⟨hid, hc⟩ := findOne_some hfind
      exact ⟨hdoc.trans hid, (h2 c hc).imp fun _ ht => hdoc.trans ht⟩
  cases op with
  | findManage req =>
    cases hfind : findOne sv.channels req.channelId with
    | none => simpa [channelOp, hfind] using ⟨h1, h2, h3⟩
    | some c =>
      by_cases hcreator : c.creator = req.creator
      · cases hswitch : switchAction c req with
        | update c' clear =>
          simp only [channelOp, hfind, hcreator, hswitch, ne_eq, not_true_eq_false, if_false]
          exact ⟨h1, h2, hadd hfind (switchAction_update_id hswitch).1⟩
        | dissolve =>
          simp only [channelOp, hfind, hcreator, hswitch, ne_eq, not_true_eq_false, if_false]
          refine ⟨h1, h2, ?_⟩
          intro op hmem
          simp only [List.mem_append, List.mem_singleton] at hmem
          rcases hmem with hmem | rfl
          · exact h3 op hmem
          · simp [WellQueued]
        | invalid =>
          simpa [channelOp, hfind, hcreator, hswitch] using ⟨h1, h2, h3⟩
      · simpa [channelOp, hfind, hcreator] using ⟨h1, h2, h3⟩
  | findJoin channelId username password =>
    cases hfind : findOne sv.channels channelId with
    | none => simpa [channelOp, hfind] using ⟨h1, h2, h3⟩
    | some c =>
      simp only [channelOp, hfind]
      split_ifs
      · exact ⟨h1, h2, h3⟩
      · exact ⟨h1, h2, h3⟩
      · exact ⟨h1, h2, h3⟩
      · exact ⟨h1, h2, hadd hfind rfl⟩
  | findMessage channelId username content tSend tStore =>
    cases hfind : findOne sv.channels channelId with
    | none => simpa [channelOp, hfind] using ⟨h1, h2, h3⟩
    | some c =>
      simp only [channelOp, hfind]
      split_ifs <;> exact ⟨h1, h2, h3⟩
  | update channelId doc reply =>
    obtain ⟨hid, hnum⟩ := hop
    refine ⟨?_, ?_, h3⟩
    · simpa [channelOp, map_id_update hid] using h1
    · intro x hx
      simp only [channelOp] at hx
      rcases mem_update hx with rfl | hx
      · exact hnum
      · exact h2 x hx
  | remove channelId =>
    refine ⟨?_, ?_, h3⟩
    · exact h1.sublist (map_id_removeOne_sublist _ _)
    · intro x hx
      exact h2 x (mem_removeOne hx)
  | insert channel =>
    cases hfind : findOne sv.channels channel._id with
    | some c => simpa [channelOp, ChatApp.insert, hfind] using ⟨h1, h2, h3⟩
    | none =>
      simp only [channelOp, ChatApp.insert, hfind, Option.isSome_none, Bool.false_eq_true,
        if_false]
      refine ⟨?_, ?_, h3⟩
      · rw [List.map_append, List.map_singleton]
        refine List.Nodup.append h1 (List.nodup_singleton _) ?_
        simpa using findOne_eq_none_iff.1 hfind
      · intro x hx
        simp only [List.mem_append, List.mem_singleton] at hx
        rcases hx with hx | rfl
        · exact h2 x hx
        · exact hop

theorem messageOp_sound {sv : Server} (op : MessageOp) (h : Sound sv) :
    Sound (messageOp sv op).1 := by
  cases op <;> exact h

theorem tick_sound {sv : Server} (t : Tick) (h : Sound sv) : Sound (tick sv t).1 := by
  cases t with
  | arrive ev => exact arrive_sound ev h
  | channelDB =>
    cases hq : sv.channelQueue with
    | nil => simpa [tick, hq] using h
    | cons op rest =>
      simp only [tick, hq]
      refine channelOp_sound op ⟨h.1, h.2.1, ?_⟩ (h.2.2 op (by simp [hq]))
      intro op' hop'
      exact h.2.2 op' (by simp [hq, hop'])
  | messageDB =>
    cases hq : sv.messageQueue with
    | nil => simpa [tick, hq] using h
    | cons op rest =>
      simp only [tick, hq]
      exact messageOp_sound op h

theorem exec_sound (ticks : List Tick) : ∀ {sv : Server}, Sound sv → Sound (exec sv ticks).1 := by
  induction ticks with
  | nil => intro sv h; exact h
  | cons t ticks ih => intro sv h; exact ih (tick_sound t h)

theorem atRest_init_sound : Sound (atRest init) := by
  simp [Sound, atRest, init]

/-! ### A channel that is gone stays gone -/

theorem findOne_eq_none_iff_forall {l : List Channel} {channelId : String} :
    findOne l channelId = none ↔ ∀ x ∈ l, x._id ≠ channelId := by
  rw [findOne_eq_none_iff]
  simp only [List.mem_map, not_exists, not_and, ne_eq]

theorem arrive_gone {sv : Server} {channelId : String} (ev : Event)
    (hpublic : channelId ≠ "public-chat") (hfresh : createsId channelId ev = false)
    (h : Gone channelId sv) : Gone channelId (arrive sv ev).1 := by
  obtain ⟨h1, h2, h3, h4⟩ := h
  cases ev with
  | joinPublic username => exact ⟨h1, h2, h3, h4⟩
  | publicMessage username content tSend tStore =>
    refine ⟨h1, h2, h3, ?_⟩
    intro op hop
    simp only [arrive, List.mem_append, List.mem_singleton] at hop
    rcases hop with hop | rfl
    · exact h4 op hop
    · simpa [storesId] using fun e => hpublic e.symm
  | createChannel name password creator tId tCreated =>
    refine ⟨h1, h2, ?_, h4⟩
    intro op hop
    simp only [arrive, List.mem_append, List.mem_singleton] at hop
    rcases hop with hop | rfl
    · exact h3 op hop
    · simpa [writesId, createsId] using hfresh
  | manageChannel req =>
    refine ⟨h1, h2, ?_, h4⟩
    intro op hop
    simp only [arrive, List.mem_append, List.mem_singleton] at hop
    rcases hop with hop | rfl
    · exact h3 op hop
    · rfl
  | joinChannel channelId' username password =>
    refine ⟨h1, h2, ?_, h4⟩
    intro op hop
    simp only [arrive, List.mem_append, List.mem_singleton] at hop
    rcases hop with hop | rfl
    · exact h3 op hop
    · rfl
  | channelMessage channelId' username content tSend tStore =>
    refine ⟨h1, h2, ?_, h4⟩
    intro op hop
    simp only [arrive, List.mem_append, List.mem_singleton] at hop
    rcases hop with hop | rfl
    · exact h3 op hop
    · rfl

theorem channelOp_gone {sv : Server} {channelId : String} (op : ChannelOp)
    (hop : writesId channelId op = false) (h : Gone channelId sv) :
    Gone channelId (channelOp sv op).1 := by
  obtain ⟨h1, h2, h3, h4⟩ := h
  have hother : ∀ {id : String} {c : Channel}, findOne sv.channels id = some c →
      c._id ≠ channelId ∧ id ≠ channelId := by
    intro id c hfind
    obtain ⟨hid, hc⟩ := findOne_some hfind
    have hne := findOne_eq_none_iff_forall.1 h1 c hc
    exact ⟨hne, hid ▸ hne⟩
  have hadd : ∀ {q : List ChannelOp} {x : ChannelOp}, (∀ op ∈ q, writesId channelId op = false) →
      writesId channelId x = false → ∀ op ∈ q ++ [x], writesId channelId op = false := by
    intro q x hq hx op hmem
    simp only [List.mem_append, List.mem_singleton] at hmem
    rcases hmem with hmem | rfl
    · exact hq op hmem
    · exact hx
  have haddm : ∀ {q : List MessageOp} {x : MessageOp}, (∀ op ∈ q, storesId channelId op = false) →
      storesId channelId x = false → ∀ op ∈ q ++ [x], storesId channelId op = false := by
    intro q x hq hx op hmem
    simp only [List.mem_append, List.mem_singleton] at hmem
    rcases hmem with hmem | rfl
    · exact hq op hmem
    · exact hx
  cases op with
  | findManage req =>
    cases hfind : findOne sv.channels req.channelId with
    | none => simpa [channelOp, hfind] using ⟨h1, h2, h3, h4⟩
    | some c =>
      by_cases hcreator : c.creator = req.creator
      · cases hswitch : switchAction c req with
        | update c' clear =>
          simp only [channelOp, hfind, hcreator, hswitch, ne_eq, not_true_eq_false, if_false]
          refine ⟨h1, h2, hadd h3 ?_, ?_⟩
          · have := (hother hfind).1
            simpa [writesId, (switchAction_update_id hswitch).1] using this
          · cases clear
            · simpa using h4
            · simpa using @haddm _ (MessageOp.remove req.channelId) h4 rfl
        | dissolve =>
          simp only [channelOp, hfind, hcreator, hswitch, ne_eq, not_true_eq_false, if_false]
          exact ⟨h1, h2, hadd h3 rfl, haddm h4 rfl⟩
        | invalid =>
          simpa [channelOp, hfind, hcreator, hswitch] using ⟨h1, h2, h3, h4⟩
      · simpa [channelOp, hfind, hcreator] using ⟨h1, h2, h3, h4⟩
  | findJoin id username password =>
    cases hfind : findOne sv.channels id with
    | none => simpa [channelOp, hfind] using ⟨h1, h2, h3, h4⟩
    | some c =>
      simp only [channelOp, hfind]
      split_ifs
      · exact ⟨h1, h2, h3, h4⟩
      · exact ⟨h1, h2, h3, h4⟩
      · exact ⟨h1, h2, h3, haddm h4 rfl⟩
      · refine ⟨h1, h2, hadd h3 ?_, haddm h4 rfl⟩
        simpa [writesId] using (hother hfind).1
  | findMessage id username content tSend tStore =>
    cases hfind : findOne sv.channels id with
    | none => simpa [channelOp, hfind] using ⟨h1, h2, h3, h4⟩
    | some c =>
      simp only [channelOp, hfind]
      split_ifs
      · exact ⟨h1, h2, h3, h4⟩
      · refine ⟨h1, h2, h3, haddm h4 ?_⟩
        simpa [storesId] using (hother hfind).2
  | update id doc reply =>
    refine ⟨?_, h2, h3, h4⟩
    rw [findOne_eq_none_iff_forall] at h1 ⊢
    intro x hx
    simp only [channelOp] at hx
    rcases mem_update hx with rfl | hx
    · simpa [writesId] using hop
    · exact h1 x hx
  | remove id =>
    refine ⟨?_, h2, h3, h4⟩
    rw [findOne_eq_none_iff_forall] at h1 ⊢
    intro x hx
    exact h1 x (mem_removeOne hx)
  | insert channel =>
    cases hfind : findOne sv.channels channel._id with
    | some c => simpa [channelOp, ChatApp.insert, hfind] using ⟨h1, h2, h3, h4⟩
    | none =>
      simp only [channelOp, ChatApp.insert, hfind, Option.isSome_none, Bool.false_eq_true,
        if_false]
      refine ⟨?_, h2, h3, h4⟩
      rw [findOne_eq_none_iff_forall] at h1 ⊢
      intro x hx
      simp only [List.mem_append, List.mem_singleton] at hx
      rcases hx with hx | rfl
      · exact h1 x hx
      · simpa [writesId] using hop

theorem messageOp_gone {sv : Server} {channelId : String} (op : MessageOp)
    (hop : storesId channelId op = false) (h : Gone channelId sv) :
    Gone channelId (messageOp sv op).1 := by
  obtain ⟨h1, h2, h3, h4⟩ := h
  cases op with
  | insert msg =>
    refine ⟨h1, ?_, h3, h4⟩
    intro m hm
    simp only [messageOp, List.mem_append, List.mem_singleton] at hm
    rcases hm with hm | rfl
    · exact h2 m hm
    · simpa [storesId] using hop
  | remove id =>
    refine ⟨h1, ?_, h3, h4⟩
    intro m hm
    exact h2 m (List.mem_of_mem_filter hm)
  | find id channel username => exact ⟨h1, h2, h3, h4⟩

theorem tick_gone {sv : Server} {channelId : String} (t : Tick)
    (hpublic : channelId ≠ "public-chat") (hfresh : ticksCreate channelId t = false)
    (h : Gone channelId sv) : Gone channelId (tick sv t).1 := by
  cases t with
  | arrive ev => exact arrive_gone ev hpublic hfresh h
  | channelDB =>
    cases hq : sv.channelQueue with
    | nil => simpa [tick, hq] using h
    | cons op rest =>
      simp only [tick, hq]
      refine channelOp_gone op (h.2.2.1 op (by simp [hq])) ⟨h.1, h.2.1, ?_, h.2.2.2⟩
      intro op' hop'
      exact h.2.2.1 op' (by simp [hq, hop'])
  | messageDB =>
    cases hq : sv.messageQueue with
    | nil => simpa [tick, hq] using h
    | cons op rest =>
      simp only [tick, hq]
      refine messageOp_gone op (h.2.2.2 op (by simp [hq])) ⟨h.1, h.2.1, h.2.2.1, ?_⟩
      intro op' hop'
      exact h.2.2.2 op' (by simp [hq, hop'])

theorem exec_gone {channelId : String} (hpublic : channelId ≠ "public-chat")
    (ticks : List Tick) :
    ∀ {sv : Server}, (∀ t ∈ ticks, ticksCreate channelId t = false) → Gone channelId sv →
      Gone channelId (exec sv ticks).1 := by
  induction ticks with
  | nil => intro sv _ h; exact h
  | cons t ticks ih =>
    intro sv hfresh h
    exact ih (fun t' ht' => hfresh t' (List.mem_cons_of_mem _ ht'))
      (tick_gone t hpublic (hfresh t (List.mem_cons_self _ _)) h)

theorem exec_append (sv : Server) (xs ys : List Tick) :
    exec sv (xs ++ ys) =
      ((exec (exec sv xs).1 ys).1, (exec sv xs).2 ++ (exec (exec sv xs).1 ys).2) := by
  induction xs generalizing sv with
  | nil => simp [exec]
  | cons t xs ih => simp [exec, ih, List.append_assoc]

/-- C6, as stated, fails, in two ways.  With a `channel-message` in flight
(`racingTicks`): its `findOne` is queued before the `remove` of the channel, so
it finds the channel, and its `insert` is queued after the `remove` of the
messages; the dissolve is answered and the store keeps a message of the
dissolved channel.  And with a reused id: after the dissolve a `create-channel`
at clock reading 1 makes a channel with the `_id` of the dissolved one, and a
`join-channel` on that id is admitted. -/
theorem dissolved_channel_returns :
    (findOne teamServer.channels "1" = some teamChannel ∧
      Effect.respond 200 "频道已解散" ∈ (exec teamServer racingTicks).2 ∧
      (exec teamServer racingTicks).1 =
        { channels := [], messages := [⟨"1", "alice", "hi", 6⟩],
          channelQueue := [], messageQueue := [] }) ∧
    (exec dissolvedServer
        [.arrive (.createChannel "again" none "carol" 1 2), .channelDB,
         .arrive (.joinChannel "1" "bob" none), .channelDB]).2 =
      [.ioEmit "channel-created" (.channel
          { _id := "1", name := "again", creator := "carol", password := none,
            members := ["carol"], mutedUsers := [], bannedUsers := [], createdAt := 2 }),
       .socketJoin "1", .socketEmit "create-success" (.created "1" "频道创建成功"),
       .socketJoin "1"] := by
  decide

/-- C6, amended: the creator's `dissolve` of an existing channel is handled
with nothing else in flight (the server is at rest when it arrives, after any
history); then, whatever arrives later and in whatever order the queued
operations run, as long as no later `create-channel` draws the same
`Date.now()` value again: the store has no document and no message of that
channel, a `join-channel` or `manage-channel` on it is answered with the text
of NotFound when its `findOne` runs and queues nothing, and a `channel-message`
to it is dropped. -/
theorem dissolved_stays_gone (before later : List Tick) (req : ManageReq)
    (channel : Channel)
    (hrest : (exec (atRest init) before).1.channelQueue = [] ∧
      (exec (atRest init) before).1.messageQueue = [])
    (hfind : findOne (exec (atRest init) before).1.channels req.channelId = some channel)
    (hcreator : channel.creator = req.creator)
    (hdissolve : req.action = "dissolve")
    (hfresh : ∀ t ∈ later, ticksCreate req.channelId t = false) :
    (exec (exec (atRest init) before).1 (alone (.manageChannel req))).2 =
        [.ioEmit "channel-dissolved" (.text req.channelId), .respond 200 "频道已解散"] ∧
    ∀ sv : Server,
      sv = (exec (exec (exec (atRest init) before).1
        (alone (.manageChannel req))).1 later).1 →
      findOne sv.channels req.channelId = none ∧
      (∀ m ∈ sv.messages, m.channelId ≠ req.channelId) ∧
      (∀ username password rest,
        sv.channelQueue = .findJoin req.channelId username password :: rest →
        tick sv .channelDB = ({ sv with channelQueue := rest },
          [.socketEmit "join-fail" (.text "频道不存在")])) ∧
      (∀ (req' : ManageReq) rest, req'.channelId = req.channelId →
        sv.channelQueue = .findManage req' :: rest →
        tick sv .channelDB = ({ sv with channelQueue := rest },
          [.respond 400 "频道不存在"])) ∧
      (∀ username content tSend tStore rest,
        sv.channelQueue =
          .findMessage req.channelId username content tSend tStore :: rest →
        tick sv .channelDB = ({ sv with channelQueue := rest }, [])) := by
  have hsound : Sound (exec (atRest init) before).1 := exec_sound before atRest_init_sound
  generalize (exec (atRest init) before).1 = sv0 at hrest hfind hsound ⊢
  obtain ⟨cs, ms, cq, mq⟩ := sv0
  simp only at hrest hfind
  obtain ⟨rfl, rfl⟩ := hrest
  have hstep : step ⟨cs, ms⟩ (.manageChannel req) =
      (⟨removeOne cs req.channelId, removeMessages ms req.channelId⟩,
       [.ioEmit "channel-dissolved" (.text req.channelId), .respond 200 "频道已解散"]) := by
    simp [step, manageChannel, manageCallback, hfind, hcreator,
      switchAction_dissolve hdissolve]
  have halone := exec_alone ⟨cs, ms⟩ (.manageChannel req)
  rw [hstep] at halone
  have halone' : exec ⟨cs, ms, [], []⟩ (alone (.manageChannel req)) =
      (atRest ⟨removeOne cs req.channelId, removeMessages ms req.channelId⟩,
       [.ioEmit "channel-dissolved" (.text req.channelId), .respond 200 "频道已解散"]) :=
    halone
  have hpublic : req.channelId ≠ "public-chat" := by
    obtain ⟨hid, hmem⟩ := findOne_some hfind
    obtain ⟨t, ht⟩ := hsound.2.1 channel hmem
    rw [← hid, ht]
    exact toString_ne_public t
  have hgone : Gone req.channelId
      (atRest ⟨removeOne cs req.channelId, removeMessages ms req.channelId⟩) := by
    refine ⟨findOne_removeOne_same hsound.1, ?_, ?_, ?_⟩
    · intro m hm
      simpa [removeMessages] using (List.mem_filter.1 hm).2
    · intro op hop
      simp [atRest] at hop
    · intro op hop
      simp [atRest] at hop
  rw [halone']
  refine ⟨rfl, ?_⟩
  intro sv hsv
  obtain ⟨h1, h2, -, -⟩ := exec_gone hpublic later hfresh hgone
  rw [← hsv] at h1 h2
  refine ⟨h1, h2, ?_, ?_, ?_⟩
  · intro username password rest hq
    simp [tick, hq, channelOp, h1]
  · intro req' rest hreq hq
    simp [tick, hq, channelOp, hreq, h1]
  · intro username content tSend tStore rest hq
    simp [tick, hq, channelOp, h1]

theorem dissolved_stays_gone_witness :
    (∀ m ∈ waitingServer.messages, m.channelId ≠ "1") ∧
      tick waitingServer .channelDB =
        ({ waitingServer with channelQueue := waitingServer.channelQueue.tail },
         [.socketEmit "join-fail" (.text "频道不存在")]) :=
  have h := (dissolved_stays_gone teamTicks laterTicks
    (moderation "1" "alice" "dissolve" "") teamChannel
    (by decide) (by decide) (by decide) (by decide) (by decide)).2 waitingServer rfl
  ⟨h.2.1, h.2.2.1 "bob" (some "pw") _ (by decide)⟩

/-! ## Interleaved requests -/

/-- The two steps of a request, one right after the other, do to the channel
store what the atomic handler does. -/
theorem writeStep_readStep (s : State) (req : ManageReq) :
    writeStep s.channels req (readStep s.channels req) = (manageChannel s req).1.channels := by
  cases hfind : findOne s.channels req.channelId with
  | none => simp [readStep, writeStep, manageChannel, manageCallback, hfind]
  | some c =>
    by_cases hcreator : c.creator = req.creator
    · cases hswitch : switchAction c req <;>
        simp [readStep, writeStep, manageChannel, manageCallback, hfind, hcreator, hswitch]
    · simp [readStep, writeStep, manageChannel, manageCallback, hfind, hcreator]

/-- A serial schedule is the two atomic handlers in a row. -/
theorem raceRun_serial (s : State) (req₁ req₂ : ManageReq) :
    raceRun req₁ req₂ s.channels [.read₁, .write₁, .read₂, .write₂] =
        (run s [.manageChannel req₁, .manageChannel req₂]).channels ∧
      raceRun req₁ req₂ s.channels [.read₂, .write₂, .read₁, .write₁] =
        (run s [.manageChannel req₂, .manageChannel req₁]).channels := by
  constructor
  · simp only [raceRun, List.foldl, raceStep, run, step]
    rw [writeStep_readStep s req₁, writeStep_readStep (manageChannel s req₁).1 req₂]
  · simp only [raceRun, List.foldl, raceStep, run, step]
    rw [writeStep_readStep s req₂, writeStep_readStep (manageChannel s req₂).1 req₁]

/-- C9, as stated, fails: alice's `ban` of bob (request 1) and `mute` of bob
(request 2) both read the channel before either writes; the `mute` writes last
and puts back the copy it read: bob is muted, but still a member and not
banned. -/
theorem ban_mute_lost_update :
    [Turn.read₁, .read₂, .write₁, .write₂] ∈ schedules ∧
      raceRun (moderation "1" "alice" "ban" "bob") (moderation "1" "alice" "mute" "bob")
          teamState.channels [.read₁, .read₂, .write₁, .write₂] =
        [{ teamChannel with mutedUsers := ["bob"] }] ∧
      "bob" ∈ ({ teamChannel with mutedUsers := ["bob"] } : Channel).members ∧
      "bob" ∉ ({ teamChannel with mutedUsers := ["bob"] } : Channel).bannedUsers := by
  decide

/-- C9, amended: when the creator's `ban` and `mute` of the same target on the
same channel run one after the other, in either order, both take effect: the
stored channel has the target in `bannedUsers`, not in `members`, and in
`mutedUsers`. -/
theorem ban_mute_serial (s : State) (ban mute : ManageReq) (channel : Channel)
    (turns : List Turn)
    (hfind : findOne s.channels ban.channelId = some channel)
    (hcreator : channel.creator = ban.creator)
    (hban : ban.action = "ban") (hmute : mute.action = "mute")
    (hid : mute.channelId = ban.channelId) (hactor : mute.creator = ban.creator)
    (htarget : mute.targetUser = ban.targetUser)
    (hturns : turns ∈ serialSchedules) :
    ∃ channel', findOne (raceRun ban mute s.channels turns) ban.channelId = some channel' ∧
      ban.targetUser ∈ channel'.bannedUsers ∧ ban.targetUser ∉ channel'.members ∧
      ban.targetUser ∈ channel'.mutedUsers := by
  have hmuted : ∀ c : Channel, mute.targetUser ∈
      (if c.mutedUsers.contains mute.targetUser then c
        else { c with mutedUsers := c.mutedUsers ++ [mute.targetUser] }).mutedUsers := by
    intro c
    by_cases h : mute.targetUser ∈ c.mutedUsers <;> simp [h]
  simp only [serialSchedules, List.mem_cons, List.mem_singleton, List.not_mem_nil,
    or_false] at hturns
  rcases hturns with rfl | rfl
  · rw [(raceRun_serial s ban mute).1]
    have h1 := manageChannel_ban hfind hcreator hban
    rw [← hid] at h1
    have h2 := (manageChannel_update h1 (hcreator.trans hactor.symm)
      (switchAction_mute hmute)).2
    rw [hid] at h2
    exact ⟨_, h2, by split_ifs <;> simp, by split_ifs <;> simp, htarget ▸ hmuted _⟩
  · rw [(raceRun_serial s ban mute).2]
    have h0 : findOne s.channels mute.channelId = some channel := by rw [hid]; exact hfind
    have h1 := (manageChannel_update h0 (hcreator.trans hactor.symm)
      (switchAction_mute hmute)).2
    rw [hid] at h1
    have hc : (if channel.mutedUsers.contains mute.targetUser then channel
        else { channel with mutedUsers := channel.mutedUsers ++ [mute.targetUser] }).creator =
        ban.creator := by
      split_ifs <;> exact hcreator
    have h2 := manageChannel_ban h1 hc hban
    exact ⟨_, h2, by simp, by simp, htarget ▸ hmuted _⟩

theorem ban_mute_serial_witness :
    ∃ channel', findOne (raceRun (moderation "1" "alice" "ban" "bob")
          (moderation "1" "alice" "mute" "bob") teamState.channels
          [.read₂, .write₂, .read₁, .write₁]) "1" = some channel' ∧
      "bob" ∈ channel'.bannedUsers ∧ "bob" ∉ channel'.members ∧
      "bob" ∈ channel'.mutedUsers :=
  ban_mute_serial teamState (moderation "1" "alice" "ban" "bob")
    (moderation "1" "alice" "mute" "bob") teamChannel [.read₂, .write₂, .read₁, .write₁]
    (by decide) (by decide) (by decide) (by decide) (by decide) (by decide) (by decide)
    (by decide)

end ChatApp
